import Mathlib

/-!
Verification development for the dirrotate utility (src/src/main.rs and
src/src/matching.rs): a shallow embedding of its selection-and-eviction
pipeline, followed by theorems about the embedded definitions.

Modelling conventions:
- Paths are lists of name components (`List String`); the canonical base
  directory is such a list as well.
- Machine integers (`u64` sizes) are modelled as `Nat`; the only subtraction
  in the pipeline is `saturating_sub`, which on `Nat` is ordinary truncated
  subtraction.
- Operations that can panic via `expect` (canonicalize, glob compilation,
  metadata read, modified-time read, the unreachable pop branch) are modelled
  with `Option` / `Except`: a `none` or `.error` result is a process abort.
- Glob compilation is abstracted as a function `String → Option Matcher`
  supplied in the configuration; `none` models an invalid pattern.
- The scanner already yields only regular files, so the duplicate `is_file`
  re-check inside `file_filter` is modelled as true for every entry.
-/

namespace Dirrotate

/-- Metadata of one file as read at scan time: `len` models `Metadata::len()`
and `modified` models `Metadata::modified()`, where `none` stands for the
platform failing to supply a modification time. -/
structure Metadata where
  len : Nat
  modified : Option Nat
deriving DecidableEq, Repr, Inhabited

/-- Matchers are predicates over canonical absolute paths, the shape produced
by `path_matchers::glob` after pattern compilation. -/
abbrev Matcher := List String → Bool

/-- One scanned entry before the metadata read: the path of a regular file and
the result of its `metadata()` call, where `none` models the read failing. -/
structure RawEntry where
  path : List String
  meta : Option Metadata
deriving DecidableEq, Repr, Inhabited

/-- An entry as consumed by the filters and the planner: a path paired with
its metadata, mirroring the `(DirEntry, Metadata)` tuples of the source. -/
abbrev Entry := List String × Metadata

/-! ## matching.rs -/

/-- Embeds `canonicalize_pattern`: the pattern string is concatenated onto the
canonical base directory with a slash in between. -/
def canonicalize_pattern (base_dir : List String) (pattern : String) : String :=
  String.intercalate "/" base_dir ++ "/" ++ pattern

/-- Embeds `get_path_matcher`: absence of a pattern yields no matcher; a
present pattern is canonicalized and compiled, and a compilation failure is
the `expect` panic, modelled as the outer `none`. -/
def get_path_matcher (base_dir : List String) (pattern : Option String)
    (compile : String → Option Matcher) : Option (Option Matcher) :=
  match pattern with
  | none => some none
  | some p =>
    match compile (canonicalize_pattern base_dir p) with
    | some m => some (some m)
    | none => none

/-! ## Directory scanner (list_all_files) -/

/-- A directory tree: regular files carry the result of their metadata read,
directories carry their children. The root of a scan is a list of such nodes
(the children of the scanned directory, which itself is at depth 0 and is
neither yielded nor filtered because of `min_depth(1)`). -/
inductive FsNode where
  | file (name : String) (meta : Option Metadata) : FsNode
  | dir (name : String) (children : List FsNode) : FsNode

/-- Embeds the `is_hidden` helper of `list_all_files`: a name starting with a
dot. `starts_with(".")` is expressed as the first character being the dot,
which is the same predicate for the one-character prefix. Names are modelled
as valid Unicode, so the `to_str` fallback is elided. -/
def isHidden (name : String) : Bool :=
  name.data.head? == some '.' 

mutual

/-- Walks one node the way `WalkDir ... .filter_entry(|e| !is_hidden(e))`
does: a hidden entry is pruned entirely (neither yielded nor descended into),
a visible file is yielded, a visible directory is descended into. -/
def walkNode (pre : List String) : FsNode → List RawEntry
  | .file n m => if isHidden n then [] else [⟨pre ++ [n], m⟩]
  | .dir n cs => if isHidden n then [] else walkList (pre ++ [n]) cs

/-- Walks a list of sibling nodes in order. -/
def walkList (pre : List String) : List FsNode → List RawEntry
  | [] => []
  | c :: cs => walkNode pre c ++ walkList pre cs

end

/-- Embeds the traversal part of `list_all_files`: the recursive enumeration
of regular files under the root, with hidden entries pruned. Paths are
relative to the root (the root itself is below `min_depth` and contributes no
component here). -/
def list_all_files (root_children : List FsNode) : List RawEntry :=
  walkList [] root_children

/-- Embeds the metadata-reading `.map` at the end of `list_all_files`: every
yielded file has `metadata()` called on it, and the `expect` panics on the
first failure, modelled as `none`. -/
def read_scan_metadata : List RawEntry → Option (List Entry)
  | [] => some []
  | r :: rs =>
    match r.meta with
    | none => none
    | some m => (read_scan_metadata rs).map fun rest => (r.path, m) :: rest

/-! ## file_filter -/

/-- Embeds `file_filter`: with a select pattern keep matching entries, else
with a protect pattern keep non-matching entries, else keep all. Every entry
at this stage is a regular file, so the `is_file` conjunct is true. -/
def file_filter (items : List Entry) (select_pattern : Option Matcher)
    (protect_pattern : Option Matcher) : List Entry :=
  items.filter fun x =>
    match select_pattern with
    | some p => p x.1
    | none =>
      match protect_pattern with
      | some p => !p x.1
      | none => true

/-! ## register_operations -/

/-- Embeds the `while` loop of `register_operations`: while the freed total is
below the target and entries remain, pop from the end of the vector, record
the popped path and add its size. The `else` arm of the `if let` is the
`unreachable!` panic, modelled as `none`. -/
def registerLoop (entries : List Entry) (size_to_free size_freed : Nat)
    (operations : List (List String)) : Option (List (List String)) :=
  if size_freed < size_to_free ∧ 0 < entries.length then
    match entries.getLast? with
    | some e =>
      registerLoop entries.dropLast size_to_free (size_freed + e.2.len)
        (operations ++ [e.1])
    | none => none
  else
    some operations
termination_by entries.length
decreasing_by
  simp only [List.length_dropLast]
  omega

/-- Embeds `register_operations`: the loop starts with zero freed bytes and an
empty operations vector. -/
def register_operations (entries : List Entry) (size_to_free : Nat) :
    Option (List (List String)) :=
  registerLoop entries size_to_free 0 []

/-! ## main -/

/-- Embeds `canonicalize_base_dir`: the canonicalization result is an input of
the model, and `none` is the `expect` panic on an improper path. -/
def canonicalize_base_dir (canon_result : Option (List String)) :
    Option (List String) :=
  canon_result

/-- Embeds the first `file_filter` call of `main`, which builds `files`, the
scope of the size computation, from the scanned listing. -/
def scope_files (listed : List Entry) (include_only_matcher : Option Matcher)
    (exclude_matcher : Option Matcher) : List Entry :=
  file_filter listed include_only_matcher exclude_matcher

/-- Embeds the `current_size` computation of `main`: the sum of the metadata
lengths of the in-scope files. -/
def current_scope_size (files : List Entry) : Nat :=
  (files.map fun f => f.2.len).sum

/-- Embeds `current_size.saturating_sub(settings.max_size)`; on `Nat` the
truncated subtraction is exactly the saturating one. -/
def size_to_free (current_size max_size : Nat) : Nat :=
  current_size - max_size

/-- Embeds the second `file_filter` call of `main`, which builds `deletable`
from `files` with the select and protect matchers. -/
def deletable_files (files : List Entry) (select_matcher : Option Matcher)
    (protect_matcher : Option Matcher) : List Entry :=
  file_filter files select_matcher protect_matcher

/-- Stable insertion of an element into a key-sorted list: the element goes
in front of the first strictly greater key, after equal keys. -/
def insertByKey (key : Entry → Nat) (x : Entry) : List Entry → List Entry
  | [] => [x]
  | y :: ys => if key x ≤ key y then x :: y :: ys else y :: insertByKey key x ys

/-- A stable ascending sort by key, the behaviour of `Vec::sort_by_key`. -/
def sortByKey (key : Entry → Nat) : List Entry → List Entry
  | [] => []
  | x :: xs => insertByKey key x (sortByKey key xs)

/-- Embeds `deletable.sort_by_key(|x| x.1.modified().expect(..))`. The key
closure is only ever evaluated inside comparisons, and the stable sort never
compares on a slice of fewer than two elements, so such a slice is returned
unchanged without reading any modification time. On two or more elements
every element takes part in at least one comparison, so the `expect` panics
as soon as any entry lacks a modification time, modelled as `none`; otherwise
the list is sorted ascending by modification time. -/
def sort_by_modified (deletable : List Entry) : Option (List Entry) :=
  if deletable.length < 2 then
    some deletable
  else if deletable.all fun e => e.2.modified.isSome then
    some (sortByKey (fun e => e.2.modified.getD 0) deletable)
  else
    none

/-- Observable outcome of a completed run: the plan returned by
`register_operations`, the paths printed under the dry-run flag, and the paths
actually removed from the filesystem. -/
structure RunOutcome where
  operations : List (List String)
  printed : List (List String)
  deleted : List (List String)
deriving DecidableEq, Repr

/-- Inputs of one invocation, after argument parsing: the canonicalization
result for the requested directory, the abstract glob compiler, the four
optional pattern strings, the scanned raw listing, the parsed byte budget and
the dry-run flag. -/
structure Config where
  base_canon : Option (List String)
  compile : String → Option Matcher
  include_only : Option String
  exclude : Option String
  select_for_op : Option String
  protect_from_op : Option String
  raw : List RawEntry
  max_size : Nat
  dryrun : Bool

/-- Embeds `main` from the canonicalization of the base directory onward:
compile the four matchers, read the scanned listing with its metadata, filter
to the scope, compute the size to free with a possible early successful exit,
filter to the deletable set, sort it ascending by modification time, run
`register_operations`, and finally print the plan when the dry-run flag is
set. The source contains no deletion call after `register_operations` (only a
`perform_operations` comment), so `deleted` is always empty. Every `.error`
is an `expect` panic of the source. -/
def main_run (c : Config) : Except String RunOutcome :=
  match canonicalize_base_dir c.base_canon with
  | none => .error "Directory path is not a proper path."
  | some base =>
    match get_path_matcher base c.include_only c.compile with
    | none => .error "Not a valid glob pattern"
    | some include_only_matcher =>
      match get_path_matcher base c.exclude c.compile with
      | none => .error "Not a valid glob pattern"
      | some exclude_matcher =>
        match get_path_matcher base c.select_for_op c.compile with
        | none => .error "Not a valid glob pattern"
        | some select_matcher =>
          match get_path_matcher base c.protect_from_op c.compile with
          | none => .error "Not a valid glob pattern"
          | some protect_matcher =>
            match read_scan_metadata c.raw with
            | none => .error "Could not get metadata from file"
            | some listed =>
              let files := scope_files listed include_only_matcher exclude_matcher
              let stf := size_to_free (current_scope_size files) c.max_size
              if stf = 0 then
                .ok { operations := [], printed := [], deleted := [] }
              else
                let deletable := deletable_files files select_matcher protect_matcher
                match sort_by_modified deletable with
                | none => .error "Last Modified Time is not available on this platform"
                | some sorted =>
                  match register_operations sorted stf with
                  | none => .error "Could not pop, but length is not zero!"
                  | some operations =>
                    .ok { operations := operations,
                          printed := if c.dryrun then operations else [],
                          deleted := [] }

/-! ## Helper definitions and lemmas -/

/-- Total metadata length of a list of entries. -/
def sumLen (l : List Entry) : Nat :=
  (l.map fun e => e.2.len).sum

@[simp]
theorem sumLen_nil : sumLen [] = 0 := rfl

@[simp]
theorem sumLen_cons (e : Entry) (l : List Entry) :
    sumLen (e :: l) = e.2.len + sumLen l := by
  simp [sumLen]

theorem sumLen_reverse (l : List Entry) : sumLen l.reverse = sumLen l := by
  simp [sumLen, List.sum_reverse]

/-- Characterization of the `register_operations` loop: the result is always
`some`, consists of the accumulated operations followed by the paths of the
last `k` entries in pop order, the freed total reaches the target or the
entries run out, and no strictly shorter pop sequence already reaches the
target. -/
theorem registerLoop_char (stf : Nat) :
    ∀ (n : Nat) (entries : List Entry), entries.length = n →
      ∀ (sf : Nat) (ops : List (List String)),
      ∃ k, k ≤ entries.length ∧
        registerLoop entries stf sf ops
          = some (ops ++ (entries.reverse.take k).map (fun e => e.1)) ∧
        (stf ≤ sf + sumLen (entries.reverse.take k) ∨ k = entries.length) ∧
        (∀ j, j < k → sf + sumLen (entries.reverse.take j) < stf) := by
  intro n
  induction n using Nat.strong_induction_on with
  | _ n ih =>
    intro entries hlen sf ops
    rw [registerLoop]
    split_ifs with hcond
    · obtain ⟨hsf, hpos⟩ := hcond
      have hne : entries ≠ [] := by
        intro h
        rw [h] at hpos
        simp at hpos
      have hlast : entries.getLast? = some (entries.getLast hne) :=
        List.getLast?_eq_getLast _ hne
      have hsplit : entries.dropLast ++ [entries.getLast hne] = entries :=
        List.dropLast_append_getLast hne
      have hrev : entries.reverse = entries.getLast hne :: entries.dropLast.reverse := by
        conv_lhs => rw [← hsplit]
        simp
      simp only [hlast]
      have hdrop : entries.dropLast.length = n - 1 := by
        simp [List.length_dropLast, hlen]
      obtain ⟨k, hkle, heq, hcnd, hmin⟩ :=
        ih (n - 1) (by omega) entries.dropLast hdrop
          (sf + (entries.getLast hne).2.len) (ops ++ [(entries.getLast hne).1])
      refine ⟨k + 1, ?_, ?_, ?_, ?_⟩
      · rw [hdrop] at hkle
        omega
      · rw [heq, hrev, List.take_succ_cons, List.map_cons]
        simp
      · rcases hcnd with h | h
        · left
          rw [hrev, List.take_succ_cons, sumLen_cons]
          omega
        · right
          rw [hdrop] at h
          omega
      · intro j hj
        cases j with
        | zero => simpa using hsf
        | succ j =>
          have := hmin j (by omega)
          rw [hrev, List.take_succ_cons, sumLen_cons]
          omega
    · refine ⟨0, by omega, by simp, ?_, ?_⟩
      · rcases not_and_or.mp hcond with h | h
        · left
          simp
          omega
        · right
          omega
      · intro j hj
        exact absurd hj (Nat.not_lt_zero j)

/-! ## Claim theorems -/

/-- C4: for every eligible sequence and every size to free, the plan returned
by `register_operations` is the sequence of paths of the entries popped from
the end of the vector, its cumulative size either reaches the target or equals
the total size of the whole sequence, and the loop stops at the first
crossing: at every proper stopping point short of the chosen one the running
total is still below the target, so no file beyond the first crossing is ever
included. -/
theorem register_operations_stops_at_first_crossing
    (entries : List Entry) (stf : Nat) :
    ∃ k, k ≤ entries.length ∧
      register_operations entries stf
        = some ((entries.reverse.take k).map (fun e => e.1)) ∧
      (stf ≤ sumLen (entries.reverse.take k) ∨
        sumLen (entries.reverse.take k) = sumLen entries) ∧
      (∀ j, j < k → sumLen (entries.reverse.take j) < stf) := by
  obtain ⟨k, hkle, heq, hcnd, hmin⟩ :=
    registerLoop_char stf entries.length entries rfl 0 []
  refine ⟨k, hkle, by simpa [register_operations] using heq, ?_, ?_⟩
  · rcases hcnd with h | h
    · left
      omega
    · right
      rw [h]
      have htake : entries.reverse.take entries.length = entries.reverse := by
        rw [← List.length_reverse]
        exact List.take_length _
      rw [htake, sumLen_reverse]
  · intro j hj
    have := hmin j hj
    omega

/-- C10: the `unreachable!` branch of `register_operations` is never executed:
for every input vector and every size to free, the loop never reaches the
failed-pop arm, so the embedded function always returns an actual plan. -/
theorem register_operations_pop_never_fails (entries : List Entry) (stf : Nat) :
    (register_operations entries stf).isSome = true := by
  obtain ⟨k, _, heq, _, _⟩ :=
    registerLoop_char stf entries.length entries rfl 0 []
  simp [register_operations, heq]

/-- C5: the number of bytes to free is the saturating difference of the
in-scope total and the budget: as integers it equals
`max 0 (current_size - max_size)`, it is exactly zero when the budget meets or
exceeds the current total, and exactly the difference otherwise, with no
underflow. -/
theorem size_to_free_is_clamped_difference (current_size max_size : Nat) :
    ((size_to_free current_size max_size : Int)
        = max 0 ((current_size : Int) - (max_size : Int))) ∧
    (current_size ≤ max_size → size_to_free current_size max_size = 0) ∧
    (max_size ≤ current_size →
      (size_to_free current_size max_size : Int)
        = (current_size : Int) - (max_size : Int)) := by
  unfold size_to_free
  refine ⟨?_, ?_, ?_⟩ <;> omega

/-- Witness for C5: a satisfied budget frees zero bytes, an exceeded budget
frees exactly the difference. -/
theorem size_to_free_is_clamped_difference_witness :
    size_to_free 10 25 = 0 ∧ (size_to_free 60 25 : Int) = (60 : Int) - (25 : Int) :=
  ⟨(size_to_free_is_clamped_difference 10 25).2.1 (by norm_num),
   by simpa using (size_to_free_is_clamped_difference 60 25).2.2 (by norm_num)⟩

mutual

/-- Every entry yielded when walking one node under a hidden-free prefix has
only hidden-free path components. -/
theorem walkNode_components (pre : List String) (t : FsNode)
    (hpre : ∀ c ∈ pre, isHidden c = false) :
    ∀ e ∈ walkNode pre t, ∀ c ∈ e.path, isHidden c = false := by
  cases t with
  | file n m =>
    by_cases hn : isHidden n
    · simp [walkNode, hn]
    · intro e he c hc
      simp only [walkNode, hn, if_neg, Bool.false_eq_true, not_false_eq_true,
        List.mem_singleton] at he
      subst he
      simp only [List.mem_append, List.mem_singleton] at hc
      rcases hc with hc | hc
      · exact hpre c hc
      · subst hc
        simpa using hn
  | dir n cs =>
    by_cases hn : isHidden n
    · simp [walkNode, hn]
    · intro e he c hc
      simp only [walkNode, hn, Bool.false_eq_true, not_false_eq_true,
        if_neg] at he
      refine walkList_components (pre ++ [n]) cs ?_ e he c hc
      intro d hd
      simp only [List.mem_append, List.mem_singleton] at hd
      rcases hd with hd | hd
      · exact hpre d hd
      · subst hd
        simpa using hn

/-- Every entry yielded when walking a list of nodes under a hidden-free
prefix has only hidden-free path components. -/
theorem walkList_components (pre : List String) (ts : List FsNode)
    (hpre : ∀ c ∈ pre, isHidden c = false) :
    ∀ e ∈ walkList pre ts, ∀ c ∈ e.path, isHidden c = false := by
  cases ts with
  | nil => simp [walkList]
  | cons t ts =>
    intro e he c hc
    simp only [walkList, List.mem_append] at he
    rcases he with he | he
    · exact walkNode_components pre t hpre e he c hc
    · exact walkList_components pre ts hpre e he c hc

end

/-- C7: the scanner prunes hidden entries entirely: every file yielded by
`list_all_files` has a path in which no component (neither an ancestor
directory name nor the file name itself) starts with the hidden marker; hence
no file beneath a hidden directory is ever yielded, including non-hidden
descendants, and hidden files themselves are never yielded. -/
theorem list_all_files_yields_no_hidden (root_children : List FsNode) :
    ∀ e ∈ list_all_files root_children, ∀ c ∈ e.path, isHidden c = false :=
  walkList_components [] root_children (by simp)

/-- Witness for C7: in a tree with a hidden directory holding a visible file
and one visible top-level file, the visible file is yielded and its single
path component is not hidden. -/
theorem list_all_files_yields_no_hidden_witness : isHidden "a" = false :=
  list_all_files_yields_no_hidden
    [FsNode.dir ".hid" [FsNode.file "x" (some ⟨1, some 1⟩)],
     FsNode.file "a" (some ⟨3, some 1⟩)]
    ⟨["a"], some ⟨3, some 1⟩⟩
    (by simp [list_all_files, walkList, walkNode, isHidden]) "a" (by decide)

/-- Modelled from the spec: the Eligibility Filter as claim C3 words it,
applied to the full scanned file listing, independent of the Scope Filter.
The code pipeline instead applies `file_filter` to the scope output; this
definition exists to compare the two. -/
def eligibility_on_full_listing (listed : List Entry)
    (select_matcher protect_matcher : Option Matcher) : List Entry :=
  file_filter listed select_matcher protect_matcher

/-- C3 counterexample: with the file F excluded from the size budget by the
exclude pattern, the deletable set built by the code (eligibility applied to
the scope-filtered files) omits F, while eligibility applied to the full
listing as the claim describes keeps it; the excluded file is therefore not a
deletion candidate, contrary to the claim. -/
theorem eligibility_not_independent_of_scope :
    deletable_files
        (scope_files [(["F"], ⟨100, some 1⟩), (["G"], ⟨50, some 2⟩)]
          none (some fun p => p == ["F"]))
        none none
      = [(["G"], ⟨50, some 2⟩)] ∧
    eligibility_on_full_listing
        [(["F"], ⟨100, some 1⟩), (["G"], ⟨50, some 2⟩)] none none
      = [(["F"], ⟨100, some 1⟩), (["G"], ⟨50, some 2⟩)] ∧
    (["F"], (⟨100, some 1⟩ : Metadata)) ∉
      deletable_files
        (scope_files [(["F"], ⟨100, some 1⟩), (["G"], ⟨50, some 2⟩)]
          none (some fun p => p == ["F"]))
        none none :=
  ⟨rfl, rfl, by decide⟩

/-- C3 amended: the Eligibility Filter runs on the scope-filtered file set,
not on the full scanned listing, so a file excluded from the size budget by
the include/exclude patterns is never a deletion candidate. -/
theorem deletable_files_subset_of_scope (listed : List Entry)
    (incM excM selM protM : Option Matcher) (e : Entry)
    (he : e ∉ scope_files listed incM excM) :
    e ∉ deletable_files (scope_files listed incM excM) selM protM := by
  intro hmem
  simp only [deletable_files, file_filter] at hmem
  exact he (List.mem_of_mem_filter hmem)

/-- Witness for the amended C3: the excluded file F is not a deletion
candidate in a concrete run. -/
theorem deletable_files_subset_of_scope_witness :
    (["F"], (⟨100, some 1⟩ : Metadata)) ∉
      deletable_files
        (scope_files [(["F"], ⟨100, some 1⟩)] none (some fun p => p == ["F"]))
        none none :=
  deletable_files_subset_of_scope [(["F"], ⟨100, some 1⟩)] none
    (some fun p => p == ["F"]) none none (["F"], ⟨100, some 1⟩) (by decide)

/-- Configuration used by the determinism witness: one 7-byte file against a
3-byte budget, dry-run enabled. -/
def dryRunCfg : Config :=
  { base_canon := some ["logs"]
    compile := fun _ => none
    include_only := none
    exclude := none
    select_for_op := none
    protect_from_op := none
    raw := [⟨["a"], some ⟨7, some 1⟩⟩]
    max_size := 3
    dryrun := true }

/-- C9: the planning pipeline is a pure function of its inputs: two runs over
identical configurations (the same scanned entries with the same paths, sizes
and modification times, the same budget, patterns and flags) produce the
identical outcome, hence the identical deletion plan in the same order. -/
theorem main_run_deterministic (c1 c2 : Config) (h : c1 = c2) :
    main_run c1 = main_run c2 := by
  rw [h]

/-- Witness for C9 at a concrete dry-run configuration. -/
theorem main_run_deterministic_witness :
    main_run dryRunCfg = main_run dryRunCfg :=
  main_run_deterministic dryRunCfg dryRunCfg rfl

/-- Configuration of a live-mode run: dry-run disabled, two files of sizes 30
and 40 bytes with modification times 1 and 2, budget 50, no patterns. -/
def liveCfg : Config :=
  { base_canon := some ["logs"]
    compile := fun _ => none
    include_only := none
    exclude := none
    select_for_op := none
    protect_from_op := none
    raw := [⟨["old"], some ⟨30, some 1⟩⟩, ⟨["new"], some ⟨40, some 2⟩⟩]
    max_size := 50
    dryrun := false }

/-- C1: evaluation of the embedded `main` at a live-mode (non-dry-run)
configuration with a non-empty deletion plan: the run completes with the plan
`[["new"]]`, yet nothing is deleted from the filesystem and nothing is
printed, because the source contains no deletion call after
`register_operations` (only the dry-run print branch and a
`perform_operations` comment). The claim that in live mode each planned path
is deleted fails on this input. -/
theorem live_mode_deletes_nothing :
    main_run liveCfg
      = Except.ok { operations := [["new"]], printed := [], deleted := [] } := by
  simp only [main_run, liveCfg, canonicalize_base_dir, get_path_matcher,
    read_scan_metadata, scope_files, file_filter, current_scope_size,
    size_to_free, deletable_files, sort_by_modified]
  simp [sortByKey, insertByKey, register_operations, registerLoop]

/-- Configuration of the specification scenario for the planner: three files
of sizes 10, 20 and 30 bytes, with the 30-byte file oldest (modification time
1) and the 10-byte file newest (modification time 3), budget 25 against a
total of 60, so 35 bytes to free. -/
def rotateCfg : Config :=
  { base_canon := some ["logs"]
    compile := fun _ => none
    include_only := none
    exclude := none
    select_for_op := none
    protect_from_op := none
    raw := [⟨["f10"], some ⟨10, some 3⟩⟩, ⟨["f20"], some ⟨20, some 2⟩⟩,
            ⟨["f30"], some ⟨30, some 1⟩⟩]
    max_size := 25
    dryrun := true }

/-- C2: evaluation of the embedded `main` at the specification scenario: the
plan is `[["f10"], ["f20"], ["f30"]]`, newest first and containing all three
files, because `main` sorts `deletable` ascending by modification time while
`register_operations` pops from the end of the sorted vector. The claimed
plan, the 30-byte file followed by the 20-byte file with the 10-byte file
spared, fails on this input. -/
theorem planner_selects_newest_first :
    main_run rotateCfg
      = Except.ok { operations := [["f10"], ["f20"], ["f30"]],
                    printed := [["f10"], ["f20"], ["f30"]],
                    deleted := [] } := by
  simp only [main_run, rotateCfg, canonicalize_base_dir, get_path_matcher,
    read_scan_metadata, scope_files, file_filter, current_scope_size,
    size_to_free, deletable_files, sort_by_modified]
  simp [sortByKey, insertByKey, register_operations, registerLoop]

/-- A missing metadata read on any scanned entry makes the metadata pass
fail, which models the `expect` panic in `list_all_files`. -/
theorem read_scan_metadata_missing (raw : List RawEntry)
    (h : ∃ r ∈ raw, r.meta = none) : read_scan_metadata raw = none := by
  induction raw with
  | nil => simp at h
  | cons a l ih =>
    obtain ⟨r, hr, hmeta⟩ := h
    rcases List.mem_cons.mp hr with rfl | hr
    · simp [read_scan_metadata, hmeta]
    · have hl : read_scan_metadata l = none := ih ⟨r, hr, hmeta⟩
      cases ha : a.meta with
      | none => simp [read_scan_metadata, ha]
      | some m => simp [read_scan_metadata, ha, hl]

/-- A missing modification time on any deletable entry makes the sorting pass
fail once the list has at least two elements, which models the `expect` panic
inside the `sort_by_key` comparisons. -/
theorem sort_by_modified_missing (d : List Entry) (hlen : 2 ≤ d.length)
    (h : ∃ e ∈ d, e.2.modified = none) : sort_by_modified d = none := by
  obtain ⟨e, he, hm⟩ := h
  have hall : (d.all fun e => e.2.modified.isSome) = false := by
    cases hd : d.all fun e => e.2.modified.isSome with
    | false => rfl
    | true =>
      have := List.all_eq_true.mp hd e he
      rw [hm] at this
      simp at this
  rw [sort_by_modified, if_neg (by omega)]
  simp [hall]

/-- C6: when the computed size to free is zero, the embedded run exits
successfully with an empty plan, for every select and protect matcher and
even when no scanned entry carries a modification time: the early return of
`main` precedes the construction and sorting of the deletable set, so the
eligible set is never consulted. -/
theorem zero_size_to_free_gives_empty_plan (c : Config) (base : List String)
    (incM excM selM protM : Option Matcher) (listed : List Entry)
    (hbase : c.base_canon = some base)
    (hinc : get_path_matcher base c.include_only c.compile = some incM)
    (hexc : get_path_matcher base c.exclude c.compile = some excM)
    (hsel : get_path_matcher base c.select_for_op c.compile = some selM)
    (hprot : get_path_matcher base c.protect_from_op c.compile = some protM)
    (hmeta : read_scan_metadata c.raw = some listed)
    (hstf : size_to_free (current_scope_size (scope_files listed incM excM))
        c.max_size = 0) :
    main_run c = Except.ok { operations := [], printed := [], deleted := [] } := by
  simp only [main_run, canonicalize_base_dir, hbase, hinc, hexc, hsel, hprot,
    hmeta, hstf]
  simp

/-- Configuration whose budget is already satisfied: one 5-byte file against a
10-byte budget, with a select pattern present and no modification time
available, so a consulted eligible set would have ended in the
modification-time panic. -/
def satisfiedCfg : Config :=
  { base_canon := some ["logs"]
    compile := fun _ => some fun _ => true
    include_only := none
    exclude := none
    select_for_op := some "keep"
    protect_from_op := none
    raw := [⟨["a"], some ⟨5, none⟩⟩]
    max_size := 10
    dryrun := false }

/-- Witness for C6: the satisfied-budget run returns the empty plan without
touching the eligible set. -/
theorem zero_size_to_free_gives_empty_plan_witness :
    main_run satisfiedCfg
      = Except.ok { operations := [], printed := [], deleted := [] } :=
  zero_size_to_free_gives_empty_plan satisfiedCfg ["logs"]
    none none (some fun _ => true) none [(["a"], ⟨5, none⟩)]
    rfl rfl rfl rfl rfl rfl rfl

/-- C8: each fatal condition aborts the whole embedded run with an error, so
no plan is produced and no filesystem mutation is reached: a root path that
cannot be canonicalized; an invalid glob pattern among the four supplied
patterns; a scanned file whose metadata cannot be read; and, once the run
reaches the sorting step (a nonzero size to free) with at least two deletable
entries (the sort reads no modification time on shorter slices), a deletable
file whose modification time cannot be read. -/
theorem fatal_conditions_abort_run :
    (∀ c : Config, c.base_canon = none →
      main_run c = Except.error "Directory path is not a proper path.") ∧
    (∀ (c : Config) (base : List String), c.base_canon = some base →
      (get_path_matcher base c.include_only c.compile = none ∨
       get_path_matcher base c.exclude c.compile = none ∨
       get_path_matcher base c.select_for_op c.compile = none ∨
       get_path_matcher base c.protect_from_op c.compile = none) →
      main_run c = Except.error "Not a valid glob pattern") ∧
    (∀ (c : Config) (base : List String)
        (incM excM selM protM : Option Matcher),
      c.base_canon = some base →
      get_path_matcher base c.include_only c.compile = some incM →
      get_path_matcher base c.exclude c.compile = some excM →
      get_path_matcher base c.select_for_op c.compile = some selM →
      get_path_matcher base c.protect_from_op c.compile = some protM →
      (∃ r ∈ c.raw, r.meta = none) →
      main_run c = Except.error "Could not get metadata from file") ∧
    (∀ (c : Config) (base : List String)
        (incM excM selM protM : Option Matcher) (listed : List Entry),
      c.base_canon = some base →
      get_path_matcher base c.include_only c.compile = some incM →
      get_path_matcher base c.exclude c.compile = some excM →
      get_path_matcher base c.select_for_op c.compile = some selM →
      get_path_matcher base c.protect_from_op c.compile = some protM →
      read_scan_metadata c.raw = some listed →
      size_to_free (current_scope_size (scope_files listed incM excM))
          c.max_size ≠ 0 →
      2 ≤ (deletable_files (scope_files listed incM excM) selM protM).length →
      (∃ e ∈ deletable_files (scope_files listed incM excM) selM protM,
        e.2.modified = none) →
      main_run c
        = Except.error "Last Modified Time is not available on this platform") := by
  refine ⟨?_, ?_, ?_, ?_⟩
  · intro c h
    simp only [main_run, canonicalize_base_dir, h]
  · intro c base hbase hbad
    simp only [main_run, canonicalize_base_dir, hbase]
    cases hinc : get_path_matcher base c.include_only c.compile with
    | none => rfl
    | some incM =>
      cases hexc : get_path_matcher base c.exclude c.compile with
      | none => rfl
      | some excM =>
        cases hsel : get_path_matcher base c.select_for_op c.compile with
        | none => rfl
        | some selM =>
          cases hprot : get_path_matcher base c.protect_from_op c.compile with
          | none => rfl
          | some protM =>
            exfalso
            rcases hbad with h | h | h | h
            · rw [h] at hinc
              cases hinc
            · rw [h] at hexc
              cases hexc
            · rw [h] at hsel
              cases hsel
            · rw [h] at hprot
              cases hprot
  · intro c base incM excM selM protM hbase hinc hexc hsel hprot hmissing
    have h := read_scan_metadata_missing c.raw hmissing
    simp only [main_run, canonicalize_base_dir, hbase, hinc, hexc, hsel, hprot, h]
  · intro c base incM excM selM protM listed hbase hinc hexc hsel hprot hmeta
      hstf hlen hmissing
    have hsort := sort_by_modified_missing _ hlen hmissing
    simp only [main_run, canonicalize_base_dir, hbase, hinc, hexc, hsel, hprot,
      hmeta, hsort]
    rw [if_neg hstf]

/-- Configuration with an uncanonicalizable root path. -/
def badRootCfg : Config :=
  { base_canon := none
    compile := fun _ => some fun _ => true
    include_only := none
    exclude := none
    select_for_op := none
    protect_from_op := none
    raw := []
    max_size := 10
    dryrun := false }

/-- Configuration with an invalid include pattern: the compiler rejects every
pattern string. -/
def badGlobCfg : Config :=
  { base_canon := some ["logs"]
    compile := fun _ => none
    include_only := some "["
    exclude := none
    select_for_op := none
    protect_from_op := none
    raw := []
    max_size := 10
    dryrun := false }

/-- Configuration with one scanned file whose metadata read fails. -/
def badMetaCfg : Config :=
  { base_canon := some ["logs"]
    compile := fun _ => none
    include_only := none
    exclude := none
    select_for_op := none
    protect_from_op := none
    raw := [⟨["a"], none⟩]
    max_size := 10
    dryrun := false }

/-- Configuration with an exceeded budget and two deletable files, one of
which has no modification time. -/
def badMtimeCfg : Config :=
  { base_canon := some ["logs"]
    compile := fun _ => none
    include_only := none
    exclude := none
    select_for_op := none
    protect_from_op := none
    raw := [⟨["a"], some ⟨5, none⟩⟩, ⟨["b"], some ⟨4, some 7⟩⟩]
    max_size := 2
    dryrun := false }

/-- Witness for C8: each of the four fatal conditions aborts a concrete run. -/
theorem fatal_conditions_abort_run_witness :
    main_run badRootCfg = Except.error "Directory path is not a proper path." ∧
    main_run badGlobCfg = Except.error "Not a valid glob pattern" ∧
    main_run badMetaCfg = Except.error "Could not get metadata from file" ∧
    main_run badMtimeCfg
      = Except.error "Last Modified Time is not available on this platform" :=
  ⟨fatal_conditions_abort_run.1 badRootCfg rfl,
   fatal_conditions_abort_run.2.1 badGlobCfg ["logs"] rfl (Or.inl rfl),
   fatal_conditions_abort_run.2.2.1 badMetaCfg ["logs"] none none none none
     rfl rfl rfl rfl rfl ⟨⟨["a"], none⟩, by decide, rfl⟩,
   fatal_conditions_abort_run.2.2.2 badMtimeCfg ["logs"] none none none none
     [(["a"], ⟨5, none⟩), (["b"], ⟨4, some 7⟩)] rfl rfl rfl rfl rfl rfl
     (by decide) (by decide) ⟨(["a"], ⟨5, none⟩), by decide, rfl⟩⟩

end Dirrotate
